import Mathlib

/-!
Verification of the window-metadata utility in src/index.mjs and src/index.cjs.

The two modules read Win32 window metadata (title, owning pid, executable
path, visibility) through a retrying fixed-capacity buffer protocol, cache
drive-letter/device-name and pid/path lookups, and enumerate windows.

Modelling conventions (shallow embedding):
* Buffers of UTF-16 code units are `List Nat` (one entry per code unit).
* A native call that may reject is an `Except String` value; the error
  carries the JavaScript error message, because the code dispatches on it.
* The native boundary (user32/kernel32/psapi) is an oracle passed as a
  function parameter; the functions under verification are translated
  statement by statement from the source.
* The unbounded `while (true)` retry loop of `getW` is modelled with an
  explicit iteration budget (`fuel`); the source loop has no bound, so the
  theorems state what happens within a sufficient budget.
-/

namespace Wwutil

/-- The exact error message that getW's catch clause compares against to
recognise the insufficient-buffer condition (src/index.mjs line 66). -/
def boundsMsg : String := "\"length\" is outside of buffer bounds"

/-- Number of bytes that Buffer.byteLength (with its default utf8 encoding)
assigns to one UTF-16 code unit of the basic multilingual plane.  The source
calls Buffer.byteLength(result) with no encoding argument, so the offset
arithmetic of getW's multi-string loop is driven by this function. -/
def utf8Len (c : Nat) : Nat :=
  if c < 0x80 then 1 else if c < 0x800 then 2 else 3

/-- Buffer.byteLength(result): total UTF-8 byte count of a decoded string
(a list of UTF-16 code units). -/
def utf8ByteLength (s : List Nat) : Nat := (s.map utf8Len).sum

/-- wcharT.toString(ref.reinterpretUntilZeros(buf, wcharT.size)): decode the
buffer from offset 0 until the first zero code unit.  When the buffer holds
no zero unit at all, reinterpretUntilZeros raises the "length is outside of
buffer bounds" error, which the caller's catch clause sees. -/
def decodeSingleRun (buf : List Nat) : Except String (List Nat) :=
  if buf.contains 0 then Except.ok (buf.takeWhile (fun c => c != 0))
  else Except.error boundsMsg

/-- The multi-string loop of getW (src/index.mjs lines 54-64): repeatedly
decode a zero-terminated run, then advance by
(Buffer.byteLength(result) + 1) * 2 bytes, i.e. by utf8ByteLength run + 1
code units, until an empty run is decoded (the empty run is pushed before
the loop stops).  Advancing is expressed by dropping the consumed prefix of
the buffer instead of carrying an absolute offset; the two are equivalent
because every lookup in the source is `buf` at offset o and the model's
remaining list is `buf.drop o`.  `fuel` bounds the number of iterations of
the source's unbounded loop; `buf.length + 1` iterations always suffice
(each iteration before the last consumes at least one code unit). -/
def multiRunsF (fuel : Nat) (r : List Nat) : Except String (List (List Nat)) :=
  match fuel with
  | 0 => Except.error boundsMsg
  | fuel + 1 =>
    if r.contains 0 then
      let run := r.takeWhile (fun c => c != 0)
      if run.isEmpty then Except.ok [run]
      else (multiRunsF fuel (r.drop (utf8ByteLength run + 1))).map (fun rs => run :: rs)
    else Except.error boundsMsg

/-- Result of one getW call: a single string, or the list of strings of a
multi-string read. -/
inductive GetWOut where
  | single (s : List Nat)
  | multi (ss : List (List Nat))
deriving DecidableEq, Repr

/-- The decoding part of one try-block iteration of getW: single mode decodes
one run from offset 0; multi mode (`splitZeros = true`) runs the loop and
drops the final empty run (`results.slice(0, -1)`). -/
def attemptDecode (splitZeros : Bool) (buf : List Nat) : Except String GetWOut :=
  if splitZeros then
    (multiRunsF (buf.length + 1) buf).map (fun rs => GetWOut.multi rs.dropLast)
  else
    (decodeSingleRun buf).map GetWOut.single

/-- One full try-block attempt of getW at buffer capacity `len`: invoke the
supplied native call (which either rejects with some message or fills the
buffer), then decode.  Any error raised inside the try block — from the call
or from decoding — reaches the same catch clause, hence the combined
`Except`. -/
def attemptRes (call : Nat → Except String (List Nat)) (splitZeros : Bool)
    (len : Nat) : Except String GetWOut :=
  (call len).bind (attemptDecode splitZeros)

/-- The retry loop of getW starting from capacity `len`: on an error whose
message is exactly `boundsMsg` the capacity is doubled and the call retried;
any other error is rethrown unchanged; `none` means the iteration budget ran
out (the source loop would still be running). -/
def getWFrom (call : Nat → Except String (List Nat)) (splitZeros : Bool)
    (len : Nat) : Nat → Option (Except String GetWOut)
  | 0 => none
  | fuel + 1 =>
    match attemptRes call splitZeros len with
    | Except.ok out => some (Except.ok out)
    | Except.error m =>
      if m = boundsMsg then getWFrom call splitZeros (len * 2) fuel
      else some (Except.error m)

/-- getW (src/index.mjs lines 45-72): the retry loop with its initial
capacity of 256 code units.  The cjs variant takes the initial capacity as a
third parameter whose default is 256; this definition is both the mjs getW
and the cjs getW at its default. -/
def getW (call : Nat → Except String (List Nat)) (splitZeros : Bool)
    (fuel : Nat) : Option (Except String GetWOut) :=
  getWFrom call splitZeros 256 fuel

/-- The sequence of buffer capacities that getW's loop attempts, starting
from `len`, within the given iteration budget. -/
def getWAttemptsFrom (call : Nat → Except String (List Nat)) (splitZeros : Bool)
    (len : Nat) : Nat → List Nat
  | 0 => []
  | fuel + 1 =>
    len ::
      match attemptRes call splitZeros len with
      | Except.ok _ => []
      | Except.error m =>
        if m = boundsMsg then getWAttemptsFrom call splitZeros (len * 2) fuel
        else []

/-- Buffer capacities attempted by getW from its initial capacity 256. -/
def getWAttempts (call : Nat → Except String (List Nat)) (splitZeros : Bool)
    (fuel : Nat) : List Nat :=
  getWAttemptsFrom call splitZeros 256 fuel

/-- A multi-string buffer: every string as a zero-terminated run, followed by
the terminating empty run (the closing extra zero). -/
def encodeMulti (ss : List (List Nat)) : List Nat :=
  ss.foldr (fun s acc => s ++ 0 :: acc) [0]

-- Equality on promise outcomes is decidable (needed to evaluate the model
-- on concrete inputs).
deriving instance DecidableEq for Except

/-- getTitleByHwnd of src/index.mjs line 95-97: read the window text through
getW with no initial-capacity argument, i.e. starting at getW's fixed 256.
`gwt hwnd len` is the native GetWindowTextW bound to `hwnd` at capacity
`len`. -/
def getTitleByHwndMjs (gwt : Int → Nat → Except String (List Nat))
    (hwnd : Int) (fuel : Nat) : Option (Except String GetWOut) :=
  getWFrom (gwt hwnd) false 256 fuel

/-- getTitleByHwnd of src/index.cjs lines 112-118: same read, but the call
passes 25565 as getW's initial capacity parameter. -/
def getTitleByHwndCjs (gwt : Int → Nat → Except String (List Nat))
    (hwnd : Int) (fuel : Nat) : Option (Except String GetWOut) :=
  getWFrom (gwt hwnd) false 25565 fuel

/-- Capacities attempted by the mjs title read. -/
def titleAttemptsMjs (gwt : Int → Nat → Except String (List Nat))
    (hwnd : Int) (fuel : Nat) : List Nat :=
  getWAttemptsFrom (gwt hwnd) false 256 fuel

/-- Capacities attempted by the cjs title read. -/
def titleAttemptsCjs (gwt : Int → Nat → Except String (List Nat))
    (hwnd : Int) (fuel : Nat) : List Nat :=
  getWAttemptsFrom (gwt hwnd) false 25565 fuel

/-- A well-behaved native text read: rejects with the insufficient-buffer
message whenever the capacity is below `need`, and fills the buffer with the
same contents once the capacity suffices. -/
def gwtOf (need : Nat) (buf : List Nat) : Int → Nat → Except String (List Nat) :=
  fun _ len => if len < need then Except.error boundsMsg else Except.ok buf

/-- One native call made by the process-path lookup (for call traces). -/
inductive PEvent where
  | openCall (pid : Int)
  | readCall (h : Int)
  | closeCall (h : Int)
deriving DecidableEq, Repr

/-- The native boundary used by getPathByPid: kernel32.OpenProcess for a pid
(resolving to a handle or rejecting) and the image-path read on a handle
(the awaited outcome of the inner getW over psapi.GetProcessImageFileNameW).
kernel32.CloseHandle is modelled as always resolving. -/
structure ProcEnv where
  openProcess : Int → Except String Int
  readImagePath : Int → Except String String

/-- The drive-map scan of getPathByPid (src/index.mjs lines 215-219): find
the first (driveLetter, deviceName) entry whose device name is a prefix of
the raw path and rewrite that prefix to "letter:"; if no entry matches the
resolution is the absence of a path.  rawPath.replace(deviceName, ...) with
a string pattern replaces the first occurrence, which is the occurrence at
index 0 guaranteed by the indexOf test. -/
def rewritePath (driveMap : List (String × String)) (raw : String) : Option String :=
  match driveMap.find? (fun e => e.2.isPrefixOf raw) with
  | some e => some (e.1 ++ ":" ++ raw.drop e.2.length)
  | none => none

/-- The body of the async lookup that getPathByPid stores into the cache
(src/index.mjs lines 208-223): open the process, read the raw image path
inside try, rewrite it against the drive map, and close the handle in the
finally block — on success, on no-match and on a read failure alike.  The
second component is the trace of native calls performed.  When OpenProcess
itself rejects, the try block is never entered, so no handle exists and no
close occurs. -/
def lookupPathBody (env : ProcEnv) (driveMap : List (String × String))
    (pid : Int) : Except String (Option String) × List PEvent :=
  match env.openProcess pid with
  | Except.error e => (Except.error e, [PEvent.openCall pid])
  | Except.ok h =>
    match env.readImagePath h with
    | Except.error e =>
      (Except.error e, [PEvent.openCall pid, PEvent.readCall h, PEvent.closeCall h])
    | Except.ok raw =>
      (Except.ok (rewritePath driveMap raw),
        [PEvent.openCall pid, PEvent.readCall h, PEvent.closeCall h])

/-- The shared processMap: an association of pids to the settled outcome of
the lookup stored for that pid, plus a count of native open/read/close
sequences that have been started.  In the source the map stores the promise
itself; because the environment here is a fixed oracle, the promise is
represented by its eventual outcome, recorded at insertion time. -/
structure PMapState where
  cache : List (Int × Except String (Option String))
  nLookups : Nat
deriving DecidableEq, Repr

/-- getPathByPid (src/index.mjs lines 207-226) as one step on the shared
cache: `processMap[pid] ??= (async () => ...)()` tests the slot and stores
the new promise with no intervening await, so on the single-threaded event
loop the test-and-insert is atomic with respect to other callers; a call is
therefore one atomic step that either finds the pid's entry (performing no
native work) or inserts the entry and starts one native lookup sequence.
`await processMap[pid]` then yields the entry's settled outcome, whether it
fulfilled or rejected. -/
def getPathByPid (env : ProcEnv) (dm : List (String × String))
    (s : PMapState) (pid : Int) : PMapState × Except String (Option String) :=
  match s.cache.lookup pid with
  | some o => (s, o)
  | none =>
    let o := (lookupPathBody env dm pid).1
    (⟨(pid, o) :: s.cache, s.nLookups + 1⟩, o)

/-- A sequence of getPathByPid calls against one shared cache (any
interleaving of concurrent callers linearises to such a sequence, since each
call's cache interaction is a single atomic step). -/
def runCalls (env : ProcEnv) (dm : List (String × String)) :
    PMapState → List Int → PMapState
  | s, [] => s
  | s, p :: ps => runCalls env dm (getPathByPid env dm s p).1 ps

/-- The window members, in the order windowMembers lists them in the source
(and hence the order fillWindowFields iterates over). -/
inductive WField where
  | hwnd | title | pid | path | visible
deriving DecidableEq, Repr

/-- windowMembers = ['hwnd', 'title', 'pid', 'path', 'visible']. -/
def windowMembers : List WField :=
  [WField.hwnd, WField.title, WField.pid, WField.path, WField.visible]

/-- A Window record.  `hwnd` is set at construction; the other members start
as `undefined` (`none`) and are filled in place by fillWindowFields.  A
resolution that produces `undefined` (such as a no-matching-drive path) also
leaves `none`, exactly as in JavaScript. -/
@[ext] structure Window where
  hwnd : Int
  title : Option String
  pid : Option Int
  path : Option String
  visible : Option Bool
deriving DecidableEq, Repr

/-- The native boundary used by the field resolver and the enumeration
orchestrator, as a deterministic, non-rejecting oracle: the snapshot of
window handles, per-handle title / owner pid / visibility, the per-pid raw
image path, and the drive map shared by the batch.  (Failure propagation and
call counting at the path-lookup boundary are modelled separately by
`ProcEnv`/`PMapState`; this layer states the value-level behaviour, for
which the memoised lookup of a fixed oracle is the function `rawPath`.) -/
structure WEnv where
  hwnds : List Int
  title : Int → String
  pidOf : Int → Int
  visible : Int → Bool
  rawPath : Int → String
  driveMap : List (String × String)

/-- The value getPathByPid resolves for a pid under a fixed oracle. -/
def pathOf (e : WEnv) (pid : Int) : Option String :=
  rewritePath e.driveMap (e.rawPath pid)

/-- JavaScript truthiness of a possibly-absent string: `undefined` and the
empty string are falsy. -/
def truthyStr : Option String → Bool
  | none => false
  | some s => s != ""

/-- JavaScript truthiness of a possibly-absent number: `undefined` and 0 are
falsy. -/
def truthyInt : Option Int → Bool
  | none => false
  | some n => n != 0

/-- JavaScript truthiness of a possibly-absent boolean. -/
def truthyBool : Option Bool → Bool
  | none => false
  | some b => b

/-- JavaScript truthiness of a number that is always present (hwnd). -/
def truthyNum (n : Int) : Bool := n != 0

/-- The write-back loop of fillWindowFields: a member present in `values` is
written onto the window, otherwise the window's member is left alone. -/
def writeOpt {α : Type} : Option α → Option α → Option α
  | some v, _ => some v
  | none, old => old

/-- fillWindowFields (src/index.mjs lines 105-135).  `fields ??=
windowMembers`; then, iterating the members in windowMembers order, every
member that is requested and whose current value on the window is falsy gets
an entry in `values`; the `path` entry first ensures `values.pid` is set
(`values.pid ??= defs.pid()` — note this queries the pid afresh from the
hwnd, regardless of any pid already on the window) and resolves the path for
that pid; finally every entry of `values` is awaited and written onto the
window.  Because `pid` precedes `path` in windowMembers, `values.pid` at the
path step is the pid entry if one was created, else the fresh query — both
are the oracle's pid for the hwnd. -/
def fillWindowFields (e : WEnv) (w : Window) (fieldsArg : Option (List WField)) :
    Window :=
  let fields := fieldsArg.getD windowMembers
  let vHwnd : Option Int :=
    if fields.contains WField.hwnd && !truthyNum w.hwnd then some w.hwnd else none
  let vTitle : Option String :=
    if fields.contains WField.title && !truthyStr w.title
    then some (e.title w.hwnd) else none
  let vPid0 : Option Int :=
    if fields.contains WField.pid && !truthyInt w.pid
    then some (e.pidOf w.hwnd) else none
  let doPath : Bool := fields.contains WField.path && !truthyStr w.path
  let vPid : Option Int :=
    if doPath then some (vPid0.getD (e.pidOf w.hwnd)) else vPid0
  let vPath : Option (Option String) :=
    if doPath then some (pathOf e (vPid0.getD (e.pidOf w.hwnd))) else none
  let vVisible : Option Bool :=
    if fields.contains WField.visible && !truthyBool w.visible
    then some (e.visible w.hwnd) else none
  { hwnd := vHwnd.getD w.hwnd
    title := writeOpt vTitle w.title
    pid := writeOpt vPid w.pid
    path := vPath.getD w.path
    visible := writeOpt vVisible w.visible }

/-- getWindowByHwnd (src/index.mjs lines 137-146): construct a record with
only the hwnd set and fill the requested fields. -/
def getWindowByHwnd (e : WEnv) (h : Int) (fieldsArg : Option (List WField)) :
    Window :=
  fillWindowFields e ⟨h, none, none, none, none⟩ fieldsArg

/-- getAllWindows (src/index.mjs lines 161-188): pick the first-pass field
set (`['title', 'visible']` unless `all`), build a record per enumerated
handle with those fields filled, filter to windows with truthy visible and
truthy title unless `all`, then fill the actually requested fields on the
survivors.  The drive map and process map are built once and shared by both
passes (the shared maps are the `e.driveMap` / `e.rawPath` oracle of this
value-level layer). -/
def getAllWindows (e : WEnv) (all : Bool) (requireFields : Option (List WField)) :
    List Window :=
  let firstFields : Option (List WField) :=
    if all then requireFields else some [WField.title, WField.visible]
  let windows := e.hwnds.map (fun h => getWindowByHwnd e h firstFields)
  let filteredWindows :=
    if all then windows
    else windows.filter (fun w => truthyBool w.visible && truthyStr w.title)
  filteredWindows.map (fun w => fillWindowFields e w requireFields)

/-- A native text read that rejects below capacity 600 and then yields the
single character 'A': used to exercise the retry protocol concretely. -/
def call600 : Nat → Except String (List Nat) :=
  fun len => if len < 600 then Except.error boundsMsg else Except.ok [65, 0]

/-- A process environment whose open succeeds with handle 9 and whose
image-path read yields a path under device \Device\X. -/
def procEnvOk : ProcEnv :=
  ⟨fun _ => Except.ok 9, fun _ => Except.ok "\\Device\\X\\a.exe"⟩

/-- A process environment whose image-path read rejects. -/
def procEnvReadFail : ProcEnv :=
  ⟨fun _ => Except.ok 9, fun _ => Except.error "boom"⟩

/-- A process environment whose OpenProcess rejects. -/
def procEnvOpenFail : ProcEnv :=
  ⟨fun _ => Except.error "denied", fun _ => Except.ok ""⟩

/-- A one-entry drive map translating \Device\X to drive C. -/
def dmX : List (String × String) := [("C", "\\Device\\X")]

/-- A window environment with no matching drive: the raw image path of every
pid lies under a device absent from the (empty) drive map. -/
def envNoDrive : WEnv :=
  ⟨[], fun _ => "", fun _ => 7, fun _ => false, fun _ => "\\Device\\X\\a.exe", []⟩

/-- The same window environment with the drive map entry present. -/
def envDrive : WEnv :=
  ⟨[], fun _ => "", fun _ => 7, fun _ => false, fun _ => "\\Device\\X\\a.exe", dmX⟩

/-- A window record that already carries pid 5 when fillWindowFields is
entered. -/
def wPid5 : Window := ⟨1, none, some 5, none, none⟩

/-- A one-window snapshot whose window is visible and titled. -/
def envOneWin : WEnv :=
  ⟨[1], fun _ => "t", fun _ => 7, fun _ => true, fun _ => "", []⟩

lemma getWFrom_shift (call : Nat → Except String (List Nat)) (sz : Bool) :
    ∀ k start fuel : Nat,
      (∀ i < k, attemptRes call sz (start * 2 ^ i) = Except.error boundsMsg) →
      getWFrom call sz start (k + fuel) = getWFrom call sz (start * 2 ^ k) fuel := by
  intro k
  induction k with
  | zero => intro start fuel _; simp
  | succ k ih =>
    intro start fuel h
    have h0 : attemptRes call sz start = Except.error boundsMsg := by
      simpa using h 0 (Nat.succ_pos k)
    have hrest : ∀ i < k, attemptRes call sz (start * 2 * 2 ^ i) = Except.error boundsMsg := by
      intro i hi
      have he : start * 2 ^ (i + 1) = start * 2 * 2 ^ i := by ring
      have := h (i + 1) (Nat.succ_lt_succ hi)
      rwa [he] at this
    have harg : start * 2 * 2 ^ k = start * 2 ^ (k + 1) := by ring
    calc getWFrom call sz start (k + 1 + fuel)
        = getWFrom call sz start (k + fuel + 1) := by rw [Nat.add_right_comm]
      _ = getWFrom call sz (start * 2) (k + fuel) := by
          simp [getWFrom, h0]
      _ = getWFrom call sz (start * 2 * 2 ^ k) fuel := ih (start * 2) fuel hrest
      _ = getWFrom call sz (start * 2 ^ (k + 1)) fuel := by rw [harg]

lemma getWAttemptsFrom_shift (call : Nat → Except String (List Nat)) (sz : Bool) :
    ∀ k start fuel : Nat,
      (∀ i < k, attemptRes call sz (start * 2 ^ i) = Except.error boundsMsg) →
      getWAttemptsFrom call sz start (k + fuel) =
        ((List.range k).map fun i => start * 2 ^ i) ++
          getWAttemptsFrom call sz (start * 2 ^ k) fuel := by
  intro k
  induction k with
  | zero => intro start fuel _; simp
  | succ k ih =>
    intro start fuel h
    have h0 : attemptRes call sz start = Except.error boundsMsg := by
      simpa using h 0 (Nat.succ_pos k)
    have hrest : ∀ i < k, attemptRes call sz (start * 2 * 2 ^ i) = Except.error boundsMsg := by
      intro i hi
      have he : start * 2 ^ (i + 1) = start * 2 * 2 ^ i := by ring
      have := h (i + 1) (Nat.succ_lt_succ hi)
      rwa [he] at this
    have harg : start * 2 * 2 ^ k = start * 2 ^ (k + 1) := by ring
    have hmap : (List.range (k + 1)).map (fun i => start * 2 ^ i) =
        start :: (List.range k).map fun i => start * 2 * 2 ^ i := by
      rw [List.range_succ_eq_map]
      simp only [List.map_cons, List.map_map, pow_zero, mul_one]
      refine congrArg _ (List.map_congr_left fun i _ => ?_)
      show start * 2 ^ (i + 1) = start * 2 * 2 ^ i
      ring
    calc getWAttemptsFrom call sz start (k + 1 + fuel)
        = getWAttemptsFrom call sz start (k + fuel + 1) := by rw [Nat.add_right_comm]
      _ = start :: getWAttemptsFrom call sz (start * 2) (k + fuel) := by
          simp [getWAttemptsFrom, h0]
      _ = start :: (((List.range k).map fun i => start * 2 * 2 ^ i) ++
            getWAttemptsFrom call sz (start * 2 * 2 ^ k) fuel) :=
          congrArg _ (ih (start * 2) fuel hrest)
      _ = ((List.range (k + 1)).map fun i => start * 2 ^ i) ++
            getWAttemptsFrom call sz (start * 2 ^ (k + 1)) fuel := by
          rw [hmap, harg]; simp

lemma getWAttemptsFrom_one (call : Nat → Except String (List Nat)) (sz : Bool)
    (len : Nat) : getWAttemptsFrom call sz len 1 = [len] := by
  simp only [getWAttemptsFrom]
  cases attemptRes call sz len with
  | ok _ => rfl
  | error m =>
    by_cases hm : m = boundsMsg
    · simp [hm, getWAttemptsFrom]
    · simp [hm]

/-- C3: the growable-buffer reader getW starts at a capacity of 256 units; on
each attempt it invokes the supplied call at the current capacity; on an
attempt that fails with the insufficient-buffer message it doubles the
capacity and retries, so the capacities attempted are 256·2^0, …, 256·2^k;
and an attempt that fails with any other message is propagated unchanged to
the caller with no further retry. -/
theorem getW_retry_protocol (call : Nat → Except String (List Nat)) (sz : Bool) (k : Nat)
    (h : ∀ i < k, attemptRes call sz (256 * 2 ^ i) = Except.error boundsMsg) :
    (∀ m, m ≠ boundsMsg → attemptRes call sz (256 * 2 ^ k) = Except.error m →
      getW call sz (k + 1) = some (Except.error m)) ∧
    (∀ out, attemptRes call sz (256 * 2 ^ k) = Except.ok out →
      getW call sz (k + 1) = some (Except.ok out)) ∧
    getWAttempts call sz (k + 1) = (List.range (k + 1)).map fun i => 256 * 2 ^ i := by
  have h1 : getW call sz (k + 1) = getWFrom call sz (256 * 2 ^ k) 1 :=
    getWFrom_shift call sz k 256 1 h
  refine ⟨?_, ?_, ?_⟩
  · intro m hm hres
    rw [h1]
    simp only [getWFrom, hres]
    rw [if_neg hm]
  · intro out hres
    rw [h1]
    simp [getWFrom, hres]
  · have h2 := getWAttemptsFrom_shift call sz k 256 1 h
    rw [getWAttempts, h2, getWAttemptsFrom_one, List.range_succ]
    simp

/-- Witness for C3: against a native call that rejects with the
insufficient-buffer message below capacity 600, getW succeeds on the third
attempt after trying capacities 256, 512, 1024. -/
theorem getW_retry_protocol_witness :
    getW call600 false 3 = some (Except.ok (GetWOut.single [65])) ∧
    getWAttempts call600 false 3 = [256, 512, 1024] := by
  have h := getW_retry_protocol call600 false 2 (by decide)
  refine ⟨h.2.1 (GetWOut.single [65]) (by decide), ?_⟩
  rw [h.2.2]; decide

lemma takeWhile_append_of_pos (s t : List Nat) (hs : ∀ c ∈ s, 0 < c) :
    (s ++ 0 :: t).takeWhile (fun c => c != 0) = s := by
  induction s with
  | nil => simp
  | cons a s ih =>
    have ha : (a != 0) = true := by
      have := hs a (by simp)
      simp [bne_iff_ne]
      omega
    simp only [List.cons_append, List.takeWhile_cons, ha, if_true]
    rw [ih fun c hc => hs c (by simp [hc])]

lemma utf8ByteLength_ascii (s : List Nat) (h : ∀ c ∈ s, c < 128) :
    utf8ByteLength s = s.length := by
  induction s with
  | nil => simp [utf8ByteLength]
  | cons a s ih =>
    have ha : a < 0x80 := h a (by simp)
    simp only [utf8ByteLength, List.map_cons, List.sum_cons, utf8Len, if_pos ha,
      List.length_cons]
    have := ih fun c hc => h c (by simp [hc])
    simp only [utf8ByteLength] at this
    omega

lemma drop_append_cons (s t : List Nat) (a : Nat) :
    (s ++ a :: t).drop (s.length + 1) = t := by
  induction s with
  | nil => simp
  | cons b s ih =>
    simp only [List.cons_append, List.length_cons, List.drop_succ_cons]
    exact ih

lemma encodeMulti_decode (ss : List (List Nat))
    (hs : ∀ s ∈ ss, s ≠ [] ∧ ∀ c ∈ s, 0 < c ∧ c < 128) :
    ∀ fuel, ss.length < fuel →
      multiRunsF fuel (encodeMulti ss) = Except.ok (ss ++ [[]]) := by
  induction ss with
  | nil =>
    intro fuel hf
    cases fuel with
    | zero => omega
    | succ f => simp [encodeMulti, multiRunsF]
  | cons s ss ih =>
    intro fuel hf
    cases fuel with
    | zero => omega
    | succ f =>
      have hlen : ss.length < f := by
        simp only [List.length_cons] at hf
        omega
      have hne := (hs s (by simp)).1
      have hpos : ∀ c ∈ s, 0 < c := fun c hc => ((hs s (by simp)).2 c hc).1
      have hascii : ∀ c ∈ s, c < 128 := fun c hc => ((hs s (by simp)).2 c hc).2
      have henc : encodeMulti (s :: ss) = s ++ 0 :: encodeMulti ss := by
        simp [encodeMulti]
      have hcont : (s ++ 0 :: encodeMulti ss).contains 0 = true := by
        simp [List.contains]
      have hrun : (s ++ 0 :: encodeMulti ss).takeWhile (fun c => c != 0) = s :=
        takeWhile_append_of_pos s _ hpos
      have hemp : s.isEmpty = false := by
        cases s with
        | nil => exact absurd rfl hne
        | cons a s => rfl
      rw [henc]
      simp only [multiRunsF, hcont, if_true, hrun, hemp, Bool.false_eq_true,
        if_false, utf8ByteLength_ascii s hascii, drop_append_cons,
        ih (fun u hu => hs u (by simp [hu])) f hlen]
      rfl

lemma encodeMulti_length (ss : List (List Nat)) :
    ss.length < (encodeMulti ss).length + 1 := by
  induction ss with
  | nil => simp
  | cons s ss ih =>
    simp only [encodeMulti, List.foldr_cons, List.length_append, List.length_cons] at *
    omega

/-- C2 (amended): for every sequence of non-empty strings of ASCII code
units, getW in multi-string mode applied to a successful native call filling
the buffer with the null-terminated runs followed by the terminating empty
run returns exactly that sequence, the final empty run discarded. -/
theorem getW_multi_ascii_exact (ss : List (List Nat))
    (hs : ∀ s ∈ ss, s ≠ [] ∧ ∀ c ∈ s, 0 < c ∧ c < 128) :
    getW (fun _ => Except.ok (encodeMulti ss)) true 1 =
      some (Except.ok (GetWOut.multi ss)) := by
  have hdec := encodeMulti_decode ss hs ((encodeMulti ss).length + 1)
    (encodeMulti_length ss)
  simp [getW, getWFrom, attemptRes, Except.bind, attemptDecode, hdec, Except.map,
    List.dropLast_concat]

/-- C2 counterexample: for the two-string sequence "é", "x" (code units 233
and 120), whose encoding is [233, 0, 120, 0, 0], getW in multi-string mode
returns only ["é"] — the offset advance uses the UTF-8 byte length of the
decoded run (2 for é) instead of its code-unit count (1), so decoding
resumes past the start of the second run and the claimed result ["é", "x"]
is not produced. -/
theorem getW_multi_nonascii_drops_string :
    encodeMulti [[233], [120]] = [233, 0, 120, 0, 0] ∧
    getW (fun _ => Except.ok (encodeMulti [[233], [120]])) true 1 =
      some (Except.ok (GetWOut.multi [[233]])) ∧
    GetWOut.multi [[233]] ≠ GetWOut.multi [[233], [120]] := by decide

/-- Witness for C2's amended theorem: the drive-string style multi-string
"C:\", "D:\" decodes to exactly those two strings. -/
theorem getW_multi_ascii_exact_witness :
    getW (fun _ => Except.ok (encodeMulti [[67, 58, 92], [68, 58, 92]])) true 1 =
      some (Except.ok (GetWOut.multi [[67, 58, 92], [68, 58, 92]])) :=
  getW_multi_ascii_exact [[67, 58, 92], [68, 58, 92]] (by decide)

/-- C8 counterexample: the mjs title read's first attempted capacity is
getW's default 256, which is not larger than 256 — index.mjs passes no
generous initial buffer for titles. -/
theorem mjs_title_initial_capacity_not_generous :
    titleAttemptsMjs (gwtOf 1 [0]) 1 1 = [256] ∧ ¬ 256 > 256 := by decide

/-- C8 (amended): the cjs title read passes 25565 units as getW's initial
capacity — larger than the reader's default 256 — while the mjs title read
starts at the default 256; both read in single-string mode. -/
theorem title_initial_capacities (gwt : Int → Nat → Except String (List Nat))
    (hwnd : Int) (fuel : Nat) (hf : 0 < fuel) :
    (titleAttemptsCjs gwt hwnd fuel).head? = some 25565 ∧ 256 < 25565 ∧
    (titleAttemptsMjs gwt hwnd fuel).head? = some 256 := by
  obtain ⟨f, rfl⟩ : ∃ f, fuel = f + 1 := ⟨fuel - 1, by omega⟩
  refine ⟨?_, by norm_num, ?_⟩ <;>
    simp [titleAttemptsCjs, titleAttemptsMjs, getWAttemptsFrom]

/-- Witness for C8's amended theorem at a concrete reader. -/
theorem title_initial_capacities_witness :
    (titleAttemptsCjs (gwtOf 1 [0]) 0 1).head? = some 25565 ∧ 256 < 25565 ∧
    (titleAttemptsMjs (gwtOf 1 [0]) 0 1).head? = some 256 :=
  title_initial_capacities (gwtOf 1 [0]) 0 1 (by decide)

/-- C9 counterexample: a well-behaved native text read that needs 300 units
makes the two modules issue different native call sequences for the same
title — mjs attempts capacities 256 then 512, cjs attempts 25565 once — so
the modules are not equivalent at the level of native call sequences. -/
theorem mjs_cjs_title_call_sequences_differ :
    titleAttemptsMjs (gwtOf 300 [65, 0]) 0 3 = [256, 512] ∧
    titleAttemptsCjs (gwtOf 300 [65, 0]) 0 3 = [25565] ∧
    ([256, 512] : List Nat) ≠ [25565] := by decide

lemma getWFrom_gwtOf (need : Nat) (buf : List Nat) (hwnd : Int)
    (hbuf : 0 ∈ buf) :
    ∀ k start : Nat, need ≤ start * 2 ^ k →
      getWFrom (gwtOf need buf hwnd) false start (k + 1) =
        some (Except.ok (GetWOut.single (buf.takeWhile fun c => c != 0))) := by
  intro k
  induction k with
  | zero =>
    intro start h
    rw [pow_zero, mul_one] at h
    have hlt : ¬ start < need := by omega
    simp [getWFrom, attemptRes, gwtOf, hlt, Except.bind, attemptDecode,
      decodeSingleRun, hbuf, Except.map]
  | succ k ih =>
    intro start h
    by_cases hslt : start < need
    · have hstep : getWFrom (gwtOf need buf hwnd) false start (k + 1 + 1) =
          getWFrom (gwtOf need buf hwnd) false (start * 2) (k + 1) := by
        simp [getWFrom, attemptRes, gwtOf, hslt, Except.bind]
      rw [hstep]
      refine ih (start * 2) ?_
      have he : start * 2 ^ (k + 1) = start * 2 * 2 ^ k := by ring
      rw [he] at h
      exact h
    · simp [getWFrom, attemptRes, gwtOf, hslt, Except.bind, attemptDecode,
        decodeSingleRun, hbuf, Except.map]

/-- C9 (amended): the two modules differ in the native call sequence of the
title read (cjs starts getW at 25565, mjs at 256) but agree on the returned
value: against a well-behaved native reader, both resolve the same title. -/
theorem mjs_cjs_title_results_agree (need : Nat) (buf : List Nat) (hwnd : Int)
    (k : Nat) (hbuf : 0 ∈ buf) (hneed : need ≤ 256 * 2 ^ k) :
    getTitleByHwndMjs (gwtOf need buf) hwnd (k + 1) =
      getTitleByHwndCjs (gwtOf need buf) hwnd (k + 1) ∧
    getTitleByHwndMjs (gwtOf need buf) hwnd (k + 1) =
      some (Except.ok (GetWOut.single (buf.takeWhile fun c => c != 0))) := by
  have h1 := getWFrom_gwtOf need buf hwnd hbuf k 256 hneed
  have h2 := getWFrom_gwtOf need buf hwnd hbuf k 25565
    (le_trans hneed (Nat.mul_le_mul_right _ (by norm_num)))
  exact ⟨h1.trans h2.symm, h1⟩

/-- Witness for C9's amended theorem: a title needing 300 units resolves to
the same value through both modules. -/
theorem mjs_cjs_title_results_agree_witness :
    getTitleByHwndMjs (gwtOf 300 [65, 0]) 0 2 =
      getTitleByHwndCjs (gwtOf 300 [65, 0]) 0 2 ∧
    getTitleByHwndMjs (gwtOf 300 [65, 0]) 0 2 =
      some (Except.ok (GetWOut.single [65])) :=
  mjs_cjs_title_results_agree 300 [65, 0] 0 1 (by decide) (by norm_num)

/-- C6: whenever OpenProcess succeeds with a handle, every path through the
lookup body — successful rewrite, no matching drive, and a failing image-path
read — performs exactly one CloseHandle on that handle, and a failing read
still propagates its error to the caller after the handle is closed. -/
theorem getPathByPid_releases_handle (env : ProcEnv) (dm : List (String × String))
    (pid : Int) (h : Int) (hopen : env.openProcess pid = Except.ok h) :
    (lookupPathBody env dm pid).2.count (PEvent.closeCall h) = 1 ∧
    (∀ e, env.readImagePath h = Except.error e →
      (lookupPathBody env dm pid).1 = Except.error e) := by
  cases hr : env.readImagePath h with
  | error e =>
    constructor
    · simp [lookupPathBody, hopen, hr, List.count_cons]
    · intro e2 he2
      injection he2 with he3
      subst he3
      simp [lookupPathBody, hopen, hr]
  | ok raw =>
    constructor
    · simp [lookupPathBody, hopen, hr, List.count_cons]
    · intro e2 he2
      exact absurd he2 (by simp)

/-- Witness for C6: a lookup whose image-path read rejects still closes the
opened handle exactly once and surfaces the read's error. -/
theorem getPathByPid_releases_handle_witness :
    (lookupPathBody procEnvReadFail dmX 4).2.count (PEvent.closeCall 9) = 1 ∧
    (lookupPathBody procEnvReadFail dmX 4).1 = Except.error "boom" := by
  have hw := getPathByPid_releases_handle procEnvReadFail dmX 4 9 rfl
  exact ⟨hw.1, hw.2 "boom" rfl⟩

lemma getPathByPid_cached (env : ProcEnv) (dm : List (String × String))
    (s : PMapState) (pid : Int) (o : Except String (Option String))
    (hc : s.cache.lookup pid = some o) :
    getPathByPid env dm s pid = (s, o) := by
  simp [getPathByPid, hc]

lemma getPathByPid_preserves_lookup (env : ProcEnv) (dm : List (String × String))
    (s : PMapState) (pid q : Int) (o : Except String (Option String))
    (hs : s.cache.lookup pid = some o) :
    ((getPathByPid env dm s q).1).cache.lookup pid = some o := by
  cases hq : s.cache.lookup q with
  | some o2 => simpa [getPathByPid, hq] using hs
  | none =>
    have hne : pid ≠ q := by
      intro he
      rw [he, hq] at hs
      cases hs
    have hbe : (pid == q) = false := by
      simp [beq_iff_eq]
      exact hne
    simp [getPathByPid, hq, List.lookup, hbe, hs]

lemma runCalls_preserves_lookup (env : ProcEnv) (dm : List (String × String))
    (ps : List Int) :
    ∀ (s : PMapState) (pid : Int) (o : Except String (Option String)),
      s.cache.lookup pid = some o →
      (runCalls env dm s ps).cache.lookup pid = some o := by
  induction ps with
  | nil => intro s pid o hs; simpa [runCalls] using hs
  | cons p ps ih =>
    intro s pid o hs
    exact ih _ pid o (getPathByPid_preserves_lookup env dm s pid p o hs)

lemma getPathByPid_fresh (env : ProcEnv) (dm : List (String × String))
    (s : PMapState) (pid : Int) (hnew : s.cache.lookup pid = none) :
    (getPathByPid env dm s pid).1.nLookups = s.nLookups + 1 ∧
    (getPathByPid env dm s pid).1.cache.lookup pid =
      some (getPathByPid env dm s pid).2 ∧
    ∀ ps : List Int,
      (getPathByPid env dm (runCalls env dm (getPathByPid env dm s pid).1 ps) pid).2 =
        (getPathByPid env dm s pid).2 ∧
      (getPathByPid env dm (runCalls env dm (getPathByPid env dm s pid).1 ps) pid).1 =
        runCalls env dm (getPathByPid env dm s pid).1 ps := by
    have h1 : getPathByPid env dm s pid =
        (⟨(pid, (lookupPathBody env dm pid).1) :: s.cache, s.nLookups + 1⟩,
          (lookupPathBody env dm pid).1) := by
      simp [getPathByPid, hnew]
    refine ⟨by rw [h1], by rw [h1]; simp [List.lookup], ?_⟩
    intro ps
    have hmem : (getPathByPid env dm s pid).1.cache.lookup pid =
        some (getPathByPid env dm s pid).2 := by
      rw [h1]; simp [List.lookup]
    have hrun := runCalls_preserves_lookup env dm ps (getPathByPid env dm s pid).1
      pid (getPathByPid env dm s pid).2 hmem
    have := getPathByPid_cached env dm
      (runCalls env dm (getPathByPid env dm s pid).1 ps) pid
      (getPathByPid env dm s pid).2 hrun
    rw [this]
    exact ⟨rfl, rfl⟩

/-- C1: when no entry for a pid exists yet in the shared cache, the first
getPathByPid call for it starts exactly one native lookup sequence and
inserts the pid's entry — holding the very outcome that call reports — at
the moment of the request; after any further calls on the same cache (for
this or other pids), another call for the same pid performs no new native
lookup (the cache state is returned unchanged) and reports the same outcome
as the first caller. -/
theorem getPathByPid_memoizes (env : ProcEnv) (dm : List (String × String))
    (s : PMapState) (pid : Int) (hnew : s.cache.lookup pid = none) :
    (getPathByPid env dm s pid).1.nLookups = s.nLookups + 1 ∧
    (getPathByPid env dm s pid).1.cache.lookup pid =
      some (getPathByPid env dm s pid).2 ∧
    ∀ ps : List Int,
      (getPathByPid env dm (runCalls env dm (getPathByPid env dm s pid).1 ps) pid).2 =
        (getPathByPid env dm s pid).2 ∧
      (getPathByPid env dm (runCalls env dm (getPathByPid env dm s pid).1 ps) pid).1 =
        runCalls env dm (getPathByPid env dm s pid).1 ps :=
  getPathByPid_fresh env dm s pid hnew

/-- Witness for C1: a fresh cache, a first lookup for pid 4, one interleaved
lookup for pid 7, then a second lookup for pid 4 that returns the first
outcome with the cache unchanged. -/
theorem getPathByPid_memoizes_witness :
    (getPathByPid procEnvOk dmX ⟨[], 0⟩ 4).1.nLookups = 0 + 1 ∧
    (getPathByPid procEnvOk dmX
        (runCalls procEnvOk dmX (getPathByPid procEnvOk dmX ⟨[], 0⟩ 4).1 [7]) 4).2 =
      (getPathByPid procEnvOk dmX ⟨[], 0⟩ 4).2 := by
  have hw := getPathByPid_memoizes procEnvOk dmX ⟨[], 0⟩ 4 rfl
  exact ⟨hw.1, (hw.2.2 [7]).1⟩

lemma lookupPathBody_fails (env : ProcEnv) (dm : List (String × String))
    (pid : Int) (e : String)
    (hfail : env.openProcess pid = Except.error e ∨
      ∃ h, env.openProcess pid = Except.ok h ∧ env.readImagePath h = Except.error e) :
    (lookupPathBody env dm pid).1 = Except.error e := by
  rcases hfail with ho | ⟨h, ho, hr⟩
  · simp [lookupPathBody, ho]
  · simp [lookupPathBody, ho, hr]

/-- C10: when the first lookup for a pid fails because the native open or
the image-path read rejects, the rejection is what the first caller
observes, the failed outcome is stored in the cache, and — after any further
calls on the same cache — a later call for the same pid receives the same
failure with no new native lookup attempted: failures are memoized exactly
like successes, with no retry. -/
theorem getPathByPid_memoizes_failure (env : ProcEnv) (dm : List (String × String))
    (s : PMapState) (pid : Int) (e : String) (hnew : s.cache.lookup pid = none)
    (hfail : env.openProcess pid = Except.error e ∨
      ∃ h, env.openProcess pid = Except.ok h ∧ env.readImagePath h = Except.error e) :
    (getPathByPid env dm s pid).2 = Except.error e ∧
    (getPathByPid env dm s pid).1.cache.lookup pid = some (Except.error e) ∧
    ∀ ps : List Int,
      (getPathByPid env dm (runCalls env dm (getPathByPid env dm s pid).1 ps) pid).2 =
        Except.error e ∧
      (getPathByPid env dm (runCalls env dm (getPathByPid env dm s pid).1 ps) pid).1 =
        runCalls env dm (getPathByPid env dm s pid).1 ps := by
    have hb := lookupPathBody_fails env dm pid e hfail
    have hm := getPathByPid_fresh env dm s pid hnew
    have h2 : (getPathByPid env dm s pid).2 = Except.error e := by
      simp [getPathByPid, hnew, hb]
    refine ⟨h2, by rw [← h2]; exact hm.2.1, fun ps => ?_⟩
    refine ⟨by rw [← h2]; exact (hm.2.2 ps).1, (hm.2.2 ps).2⟩

/-- Witness for C10: a lookup whose OpenProcess rejects leaves the failure in
the cache and a later call for the same pid observes the same failure. -/
theorem getPathByPid_memoizes_failure_witness :
    (getPathByPid procEnvOpenFail dmX ⟨[], 0⟩ 4).2 = Except.error "denied" ∧
    (getPathByPid procEnvOpenFail dmX
        (runCalls procEnvOpenFail dmX
          (getPathByPid procEnvOpenFail dmX ⟨[], 0⟩ 4).1 [3]) 4).2 =
      Except.error "denied" := by
  have hw := getPathByPid_memoizes_failure procEnvOpenFail dmX ⟨[], 0⟩ 4 "denied"
    rfl (Or.inl rfl)
  exact ⟨hw.1, (hw.2.2 [3]).1⟩

lemma fill_hwnd (e : WEnv) (w : Window) (f : Option (List WField)) :
    (fillWindowFields e w f).hwnd = w.hwnd := by
  simp only [fillWindowFields]
  split <;> rfl

lemma getWindowByHwnd_hwnd (e : WEnv) (h : Int) (f : Option (List WField)) :
    (getWindowByHwnd e h f).hwnd = h :=
  fill_hwnd e ⟨h, none, none, none, none⟩ f

lemma fill_title (e : WEnv) (w : Window) (f : Option (List WField)) :
    (fillWindowFields e w f).title =
      if WField.title ∈ f.getD windowMembers ∧ truthyStr w.title = false
      then some (e.title w.hwnd) else w.title := by
  simp only [fillWindowFields]
  by_cases h1 : WField.title ∈ f.getD windowMembers ∧ truthyStr w.title = false <;>
    simp [h1, writeOpt]

lemma fill_visible (e : WEnv) (w : Window) (f : Option (List WField)) :
    (fillWindowFields e w f).visible =
      if WField.visible ∈ f.getD windowMembers ∧ truthyBool w.visible = false
      then some (e.visible w.hwnd) else w.visible := by
  simp only [fillWindowFields]
  by_cases h1 : WField.visible ∈ f.getD windowMembers ∧ truthyBool w.visible = false <;>
    simp [h1, writeOpt]

lemma fill_pid (e : WEnv) (w : Window) (f : Option (List WField)) :
    (fillWindowFields e w f).pid =
      if WField.path ∈ f.getD windowMembers ∧ truthyStr w.path = false
      then some (e.pidOf w.hwnd)
      else if WField.pid ∈ f.getD windowMembers ∧ truthyInt w.pid = false
        then some (e.pidOf w.hwnd) else w.pid := by
  simp only [fillWindowFields]
  by_cases h1 : WField.path ∈ f.getD windowMembers ∧ truthyStr w.path = false <;>
    by_cases h2 : WField.pid ∈ f.getD windowMembers ∧ truthyInt w.pid = false <;>
      simp [h1, h2, writeOpt]

lemma fill_path (e : WEnv) (w : Window) (f : Option (List WField)) :
    (fillWindowFields e w f).path =
      if WField.path ∈ f.getD windowMembers ∧ truthyStr w.path = false
      then pathOf e (e.pidOf w.hwnd) else w.path := by
  simp only [fillWindowFields]
  by_cases h1 : WField.path ∈ f.getD windowMembers ∧ truthyStr w.path = false <;>
    by_cases h2 : WField.pid ∈ f.getD windowMembers ∧ truthyInt w.pid = false <;>
      simp [h1, h2, writeOpt]

lemma fill_title_of_truthy (e : WEnv) (w : Window) (f : Option (List WField))
    (h : truthyStr w.title = true) : (fillWindowFields e w f).title = w.title := by
  rw [fill_title, if_neg]
  intro hc
  rw [h] at hc
  exact absurd hc.2 (by simp)

lemma fill_visible_of_truthy (e : WEnv) (w : Window) (f : Option (List WField))
    (h : truthyBool w.visible = true) :
    (fillWindowFields e w f).visible = w.visible := by
  rw [fill_visible, if_neg]
  intro hc
  rw [h] at hc
  exact absurd hc.2 (by simp)

/-- C5 counterexample: a record that enters fillWindowFields with pid 5
already set has its pid recomputed from the window handle and overwritten
with the oracle's value 7 when 'path' is requested, because the path
resolver runs `values.pid ??= defs.pid()` without consulting the record. -/
theorem fillWindowFields_overwrites_preset_pid :
    wPid5.pid = some 5 ∧
    (fillWindowFields envNoDrive wPid5 (some [WField.path])).pid = some 7 ∧
    some (7 : Int) ≠ some (5 : Int) := by decide

/-- C5 (amended): a field already holding a truthy value is not recomputed,
except that pid is re-resolved and overwritten whenever path is requested
and unset (and falsy values — empty title, pid 0, visible false — count as
unset); nonetheless, against a fixed native environment fillWindowFields is
idempotent at the level of record values: a second call with the same field
set leaves the record exactly as it was after the first call. -/
theorem fillWindowFields_value_idempotent (e : WEnv) (w : Window)
    (f : Option (List WField)) :
    fillWindowFields e (fillWindowFields e w f) f = fillWindowFields e w f := by
  apply Window.ext
  · rw [fill_hwnd, fill_hwnd]
  · rw [fill_title, fill_title, fill_hwnd]
    by_cases h1 : WField.title ∈ f.getD windowMembers ∧ truthyStr w.title = false
    · by_cases hT : truthyStr (some (e.title w.hwnd)) = false <;>
        simp [h1, hT]
    · simp [h1]
  · rw [fill_pid, fill_pid, fill_hwnd, fill_path]
    by_cases h1 : WField.path ∈ f.getD windowMembers ∧ truthyStr w.path = false
    · by_cases hT : truthyStr (pathOf e (e.pidOf w.hwnd)) = false <;>
        by_cases hP : truthyInt (some (e.pidOf w.hwnd)) = false <;>
          simp [h1, hT, hP]
    · simp only [if_neg h1]
      by_cases h2 : WField.pid ∈ f.getD windowMembers ∧ truthyInt w.pid = false
      · by_cases hP : truthyInt (some (e.pidOf w.hwnd)) = false <;>
          simp [h1, h2, hP]
      · simp [h1, h2]
  · rw [fill_path, fill_path, fill_hwnd]
    by_cases h1 : WField.path ∈ f.getD windowMembers ∧ truthyStr w.path = false
    · by_cases hT : truthyStr (pathOf e (e.pidOf w.hwnd)) = false <;>
        simp [h1, hT]
    · simp [h1]
  · rw [fill_visible, fill_visible, fill_hwnd]
    by_cases h1 : WField.visible ∈ f.getD windowMembers ∧ truthyBool w.visible = false
    · by_cases hV : truthyBool (some (e.visible w.hwnd)) = false <;>
        simp [h1, hV]
    · simp [h1]

/-- C4 counterexample: with an empty drive map no device name matches, so
requesting ['path'] on a fresh record populates pid with 7 but leaves path
absent — the claimed "always yields both pid and path populated" fails. -/
theorem fillWindowFields_path_can_stay_absent :
    (fillWindowFields envNoDrive ⟨1, none, none, none, none⟩
        (some [WField.path])).pid = some 7 ∧
    (fillWindowFields envNoDrive ⟨1, none, none, none, none⟩
        (some [WField.path])).path = none := by decide

/-- C4 (amended): whenever the requested field set contains 'path' and the
record's path is not already set, fillWindowFields populates pid with the
pid resolved from the window handle, and sets path to the drive-map rewrite
of that pid's raw image path — which is a present value exactly when some
device name matches; hence requesting ['path'] alone always populates pid
and never yields path without pid. -/
theorem fillWindowFields_path_resolves_pid (e : WEnv) (w : Window)
    (f : Option (List WField))
    (hf : WField.path ∈ f.getD windowMembers)
    (hp : truthyStr w.path = false) :
    (fillWindowFields e w f).pid = some (e.pidOf w.hwnd) ∧
    (fillWindowFields e w f).path = pathOf e (e.pidOf w.hwnd) := by
  rw [fill_pid, fill_path]
  simp [hf, hp]

/-- Witness for C4's amended theorem: with the matching drive map entry the
fresh record gets both pid and a present path. -/
theorem fillWindowFields_path_resolves_pid_witness :
    (fillWindowFields envDrive ⟨1, none, none, none, none⟩
        (some [WField.path])).pid = some (envDrive.pidOf 1) ∧
    (fillWindowFields envDrive ⟨1, none, none, none, none⟩
        (some [WField.path])).path = pathOf envDrive (envDrive.pidOf 1) :=
  fillWindowFields_path_resolves_pid envDrive ⟨1, none, none, none, none⟩
    (some [WField.path]) (by decide) (by decide)

lemma getAllWindows_true (e : WEnv) (f : Option (List WField)) :
    getAllWindows e true f =
      (e.hwnds.map fun h => getWindowByHwnd e h f).map
        fun w => fillWindowFields e w f := by
  simp [getAllWindows]

lemma getAllWindows_false (e : WEnv) (f : Option (List WField)) :
    getAllWindows e false f =
      ((e.hwnds.map fun h =>
          getWindowByHwnd e h (some [WField.title, WField.visible])).filter
        fun w => truthyBool w.visible && truthyStr w.title).map
        fun w => fillWindowFields e w f := by
  simp [getAllWindows]

lemma map_hwnd_getWindowByHwnd (e : WEnv) (ff : Option (List WField)) :
    (e.hwnds.map fun h => getWindowByHwnd e h ff).map Window.hwnd = e.hwnds := by
  induction e.hwnds with
  | nil => rfl
  | cons a l ih => simp only [List.map_cons, getWindowByHwnd_hwnd, ih]

lemma map_hwnd_fill_list (e : WEnv) (f : Option (List WField)) (l : List Window) :
    (l.map fun w => fillWindowFields e w f).map Window.hwnd = l.map Window.hwnd := by
  induction l with
  | nil => rfl
  | cons a l ih => simp only [List.map_cons, fill_hwnd, ih]

/-- C7 counterexample: for a snapshot with one visible titled window and an
empty requested field set, the record returned by getAllWindows(false, [])
carries title and visible (from the first filtering pass), while
getAllWindows(true, []) returns the bare record — so the false-mode records
are not a subset of the true-mode records. -/
theorem getAllWindows_not_record_subset :
    Window.mk 1 (some "t") none none (some true) ∈
      getAllWindows envOneWin false (some []) ∧
    Window.mk 1 (some "t") none none (some true) ∉
      getAllWindows envOneWin true (some []) := by decide

/-- C7 (amended): for the same snapshot the window handles returned by
getAllWindows(false, fields) form a subsequence of the handles returned by
getAllWindows(true, fields) — every record whose visible is falsy or whose
title is empty or absent is discarded — and every false-mode record has
visible equal to true and a non-empty title; both passes resolve against the
same shared drive map and process map.  (The records themselves are a
subset only when the requested fields include title and visible, because the
false mode's filtering pass fills those two fields first.) -/
theorem getAllWindows_filtered_subset (e : WEnv) (f : Option (List WField)) :
    ((getAllWindows e false f).map Window.hwnd).Sublist
      ((getAllWindows e true f).map Window.hwnd) ∧
    ∀ w ∈ getAllWindows e false f,
      w.visible = some true ∧ truthyStr w.title = true := by
  constructor
  · have hRHS : (getAllWindows e true f).map Window.hwnd = e.hwnds := by
      rw [getAllWindows_true, map_hwnd_fill_list, map_hwnd_getWindowByHwnd]
    have hLHS : (getAllWindows e false f).map Window.hwnd =
        ((e.hwnds.map fun h =>
            getWindowByHwnd e h (some [WField.title, WField.visible])).filter
          fun w => truthyBool w.visible && truthyStr w.title).map Window.hwnd := by
      rw [getAllWindows_false, map_hwnd_fill_list]
    rw [hRHS, hLHS]
    have hsub : ((((e.hwnds.map fun h =>
        getWindowByHwnd e h (some [WField.title, WField.visible])).filter
          fun w => truthyBool w.visible && truthyStr w.title).map Window.hwnd).Sublist
        ((e.hwnds.map fun h =>
          getWindowByHwnd e h (some [WField.title, WField.visible])).map Window.hwnd)) :=
      (List.filter_sublist _).map Window.hwnd
    rw [map_hwnd_getWindowByHwnd] at hsub
    exact hsub
  · intro w hw
    rw [getAllWindows_false] at hw
    obtain ⟨w0, hw0, rfl⟩ := List.mem_map.mp hw
    obtain ⟨hmem, hp⟩ := List.mem_filter.mp hw0
    have hvt : truthyBool w0.visible = true ∧ truthyStr w0.title = true := by
      simpa [Bool.and_eq_true] using hp
    have hv : w0.visible = some true := by
      cases hvv : w0.visible with
      | none => rw [hvv] at hvt; simp [truthyBool] at hvt
      | some b =>
        rw [hvv] at hvt
        cases b with
        | false => simp [truthyBool] at hvt
        | true => rfl
    constructor
    · rw [fill_visible_of_truthy e w0 f hvt.1]
      exact hv
    · rw [fill_title_of_truthy e w0 f hvt.2]
      exact hvt.2

/-- Witness for C7's amended theorem at a one-window snapshot. -/
theorem getAllWindows_filtered_subset_witness :
    ((getAllWindows envOneWin false (some [])).map Window.hwnd).Sublist
      ((getAllWindows envOneWin true (some [])).map Window.hwnd) ∧
    ((Window.mk 1 (some "t") none none (some true)).visible = some true ∧
      truthyStr (Window.mk 1 (some "t") none none (some true)).title = true) := by
  have hw := getAllWindows_filtered_subset envOneWin (some [])
  exact ⟨hw.1, hw.2 (Window.mk 1 (some "t") none none (some true)) (by decide)⟩

end Wwutil
